import Mathlib

/-!
Shallow embedding of the spamc protocol-client core from
`spamd/libspamc.c` (with `spamd/utils.c` read/write helpers), together
with proofs about its response codec, framing, connection retry and
failure/fallback behaviour.

Bytes are modelled as `Char` (all relevant data is ASCII), buffers as
`List Char`, C `int`/`off_t` as `Int`/`Nat`, and C `float` arithmetic as
exact rational arithmetic (`ℚ`); fallible operations return `Option` or
`Except`.
-/

namespace Spamc

/-! ### Exit codes

Standard `sysexits.h` values, as used throughout `libspamc.c`. -/

def EX_OK : Int := 0
def EX_USAGE : Int := 64
def EX_DATAERR : Int := 65
def EX_NOHOST : Int := 68
def EX_UNAVAILABLE : Int := 69
def EX_SOFTWARE : Int := 70
def EX_OSERR : Int := 71
def EX_IOERR : Int := 74
def EX_TEMPFAIL : Int := 75
def EX_PROTOCOL : Int := 76
def EX_NOPERM : Int := 77

/-- Modelled from the spec: the repository header `libspamc.h` is not under
`src/`; it defines the verdict codes of the exit/verdict taxonomy
(`IsSpam`, `NotSpam`, `TooBig`, `OutputMessage`).  `EX_NOTSPAM` coincides
with `EX_OK` (0) and `EX_ISSPAM` is 1, matching the spec's fixed taxonomy;
`EX_TOOBIG` and `EX_OUTPUTMESSAGE` are out-of-band sentinels distinct from
every `sysexits.h` code and from each other. -/
def EX_NOTSPAM : Int := 0

def EX_ISSPAM : Int := 1
def EX_TOOBIG : Int := 866
def EX_OUTPUTMESSAGE : Int := 867

/-- headroom added to the output allocation in `_message_filter`
(`static const int EXPANSION_ALLOWANCE = 16384`). -/
def EXPANSION_ALLOWANCE : Nat := 16384

def MAX_CONNECT_RETRIES : Nat := 3

/-! ### Locale-safe numeric parsing (`_locale_safe_string_to_float`) -/

/-- whitespace set of `isspace` in the C locale, used by `strtol`. -/
def isSpaceC (c : Char) : Bool :=
  c = ' ' || c = '\t' || c = '\n' || c = '\x0b' || c = '\x0c' || c = '\r'

/-- value of a run of decimal digit characters, most significant first. -/
def digitsVal (l : List Char) : Int :=
  l.foldl (fun acc c => acc * 10 + (c.toNat - '0'.toNat : Int)) 0

/-- model of C `strtol(s, &endptr, 10)`: skip whitespace, an optional
sign, then a maximal run of decimal digits; returns the parsed value and
the rest of the input from `endptr`.  When no digit is consumed the value
is 0 and `endptr` is reset to the start of the input. -/
def strtol (s : List Char) : Int × List Char :=
  let afterWs := s.dropWhile isSpaceC
  let isNeg : Bool := afterWs.head? = some '-'
  let hasSign : Bool := isNeg || afterWs.head? = some '+'
  let body := if hasSign then afterWs.tail else afterWs
  let digits := body.takeWhile Char.isDigit
  if digits = [] then (0, s)
  else ((if isNeg then -(digitsVal digits) else digitsVal digits),
        body.dropWhile Char.isDigit)

/-- model of `_locale_safe_string_to_float(buf, siz)` from `libspamc.c`
lines 544–592, with C `float` arithmetic idealised as exact rationals:
terminate the buffer at `siz-1`, note a leading `-`, parse the integer
part with `strtol`; if the next character is not `.` return the integer
part, otherwise parse the run after the dot with `strtol` as `postdot`
and, unless it is zero, add or subtract `postdot / 10 ^ k` where `k`
counts every remaining character after the dot (the C loop
`while (*cp != '\0') divider *= 10;` runs to the end of the buffer). -/
def locale_safe_string_to_float (buf0 : List Char) (siz : Nat) : ℚ :=
  let buf := buf0.take (siz - 1)
  let is_neg : Bool := buf.head? = some '-'
  let ipDot := strtol buf
  let ret : ℚ := ipDot.1
  if ipDot.2.head? ≠ some '.' then ret
  else
    let cp := ipDot.2.tail
    let postdot : ℚ := (strtol cp).1
    if postdot = 0 then ret
    else
      let divider : ℚ := (10 : ℚ) ^ cp.length
      if is_neg then ret - postdot / divider else ret + postdot / divider

/-! ### The message structure (`struct message`) -/

/-- message type tags, `MESSAGE_{NONE,ERROR,RAW,BSMTP}` of `libspamc.h`. -/
inductive MsgType where
  | NONE
  | ERROR
  | RAW
  | BSMTP
deriving DecidableEq

/-- call flags; `libspamc.h` encodes these as bits of the `flags` word
(`SPAMC_CHECK_ONLY`, `SPAMC_SAFE_FALLBACK`, and the RAW/BSMTP mode bits).
`safeFallback` is set by callers such as `process_message` but — see the
C4 analysis — never consulted by `message_process` in this revision. -/
structure Flags where
  checkOnly : Bool := false
  safeFallback : Bool := false
  bsmtpMode : Bool := false
deriving DecidableEq

/-- model of `struct message`: buffers hold their actual bytes, so the
separate `*_len` fields of the C struct are the `List.length`s of the
corresponding fields.  Defaults are the `clear_message` values. -/
structure Message where
  type : MsgType := .NONE
  raw : List Char := []
  pre : List Char := []
  msg : List Char := []
  post : List Char := []
  is_spam : Int := EX_TOOBIG
  score : ℚ := 0
  threshold : ℚ := 0
  out : List Char := []
  content_length : Int := -1
  max_len : Nat := 0
deriving DecidableEq

/-! ### `sscanf`-style scanners used by the response codec -/

/-- match a literal run of format characters against the input, returning
the remaining input. -/
def matchLit : List Char → List Char → Option (List Char)
  | [], s => some s
  | _ :: _, [] => none
  | c :: cs, d :: ds => if d = c then matchLit cs ds else none

/-- model of a `%Ns` conversion: skip whitespace, then read up to `n`
non-whitespace characters; fails if none are available. -/
def scanStr (n : Nat) (s : List Char) : Option (List Char × List Char) :=
  let s1 := s.dropWhile isSpaceC
  let tok := (s1.takeWhile (fun c => !isSpaceC c)).take n
  if tok.isEmpty then none else some (tok, s1.drop tok.length)

/-- model of a `%d` conversion: skip whitespace, an optional sign, then at
least one decimal digit. -/
def scanInt (s : List Char) : Option (Int × List Char) :=
  let s1 := s.dropWhile isSpaceC
  let isNeg : Bool := s1.head? = some '-'
  let hasSign : Bool := isNeg || s1.head? = some '+'
  let body := if hasSign then s1.tail else s1
  let digits := body.takeWhile Char.isDigit
  if digits.isEmpty then none
  else some ((if isNeg then -(digitsVal digits) else digitsVal digits),
             body.dropWhile Char.isDigit)

/-- `sscanf(buf, "Spam: %5s ; %20s / %20s", ...) == 3`: the verdict
token, the score text and the threshold text. -/
def sscanf_spam_header (buf : List Char) : Option (List Char × List Char × List Char) := do
  let s1 ← matchLit "Spam:".data buf
  let (tok, s2) ← scanStr 5 s1
  let s3 ← matchLit [';'] (s2.dropWhile isSpaceC)
  let (sstr, s4) ← scanStr 20 s3
  let s5 ← matchLit ['/'] (s4.dropWhile isSpaceC)
  let (tstr, _) ← scanStr 20 s5
  pure (tok, sstr, tstr)

/-- `sscanf(buf, "Content-length: %d", &m->content_length) == 1`. -/
def sscanf_content_length (buf : List Char) : Option Int := do
  let s1 ← matchLit "Content-length:".data buf
  let (n, _) ← scanInt s1
  pure n

/-- `sscanf(buf, "SPAMD/%s %d %*s", versbuf, &response) == 2`: the
version text and the numeric response code (the trailing `%*s` assigns
nothing, so two successful assignments suffice). -/
def sscanf_spamd_status (buf : List Char) : Option (List Char × Int) := do
  let s1 ← matchLit "SPAMD/".data buf
  let (vers, s2) ← scanStr s1.length s1
  let (code, _) ← scanInt s2
  pure (vers, code)

/-- `strcasecmp(a, b) == 0`. -/
def strcaseEq (a b : List Char) : Bool :=
  a.map Char.toLower == b.map Char.toLower

/-! ### Response header handling (`_handle_spamd_header`, lines 594–629) -/

/-- model of `_handle_spamd_header`: a `Spam:` verdict line sets score,
threshold and the verdict (case-insensitive comparison with "true") and
returns `EX_OK`; a `Content-length:` line stores the value, returning
`EX_PROTOCOL` when it is negative and `EX_OK` otherwise; every other line
returns `EX_PROTOCOL`.  The check-only `snprintf("%.1f/%.1f\n")` summary
written into `m->out` is not modelled: no analysed property inspects it. -/
def handle_spamd_header (m : Message) (flags : Flags) (buf : List Char) : Message × Int :=
  match sscanf_spam_header buf with
  | some (tok, s_str, t_str) =>
    let score := locale_safe_string_to_float s_str 20
    let threshold := locale_safe_string_to_float t_str 20
    let verdict := if strcaseEq "true".data tok then EX_ISSPAM else EX_NOTSPAM
    ({ m with score := score, threshold := threshold, is_spam := verdict }, EX_OK)
  | none =>
    match sscanf_content_length buf with
    | some n =>
      if n < 0 then ({ m with content_length := n }, EX_PROTOCOL)
      else ({ m with content_length := n }, EX_OK)
    | none => (m, EX_PROTOCOL)

/-- the response header loop of `_message_filter` (lines 736–747).  The
incoming stream is modelled as the list of lines `_spamc_read_full_line`
would deliver (terminators already stripped); an exhausted stream is the
reader's `EX_IOERR`, and a line longer than the reader's buffer is its
`EX_TOOBIG`.  An empty line ends the headers with `EX_OK`.  Otherwise the
line goes to `handle_spamd_header` and — exactly as in the C — the loop
aborts with `EX_PROTOCOL` only `if (_handle_spamd_header(m, flags, buf, len) < 0)`. -/
def spamc_header_loop (flags : Flags) : Message → List (List Char) → Message × Int
  | m, [] => (m, EX_IOERR)
  | m, l :: rest =>
    if 8186 < l.length then (m, EX_TOOBIG)
    else if l.isEmpty then (m, EX_OK)
    else
      let hm := handle_spamd_header m flags l
      if hm.2 < 0 then (hm.1, EX_PROTOCOL)
      else spamc_header_loop flags hm.1 rest

/-- the body-receive stage of `_message_filter` (lines 759–792, plain
transport): reject a still-unset content length; `full_read` up to
`max_len + EXPANSION_ALLOWANCE + 1` bytes from the `avail`able stream;
over-limit data is `EX_TOOBIG`; a received length different from the
declared `Content-length` is the `EX_PROTOCOL` sanity check; a failure
frees the output buffer and points `out` back at `msg`, as the shared
`failure:` label does. -/
def spamc_body_receive (m : Message) (avail : List Char) : Message × Int :=
  if m.content_length < 0 then ({ m with out := m.msg }, EX_PROTOCOL)
  else
    let len := min avail.length (m.max_len + EXPANSION_ALLOWANCE + 1)
    if m.max_len + EXPANSION_ALLOWANCE < len then ({ m with out := m.msg }, EX_TOOBIG)
    else
      let m1 := { m with out := avail.take len }
      if (m1.out.length : Int) ≠ m1.content_length then ({ m1 with out := m1.msg }, EX_PROTOCOL)
      else (m1, EX_OK)

/-- a spamd response as seen by `_message_filter` after the request has
been written: the header-section lines the line reader would deliver,
then the bytes available as the body. -/
structure SpamdResponse where
  lines : List (List Char)
  body : List Char

/-- the `failure:` label of `_message_filter`: free the output buffer and
point `out` back at `msg`, surfacing the failure code. -/
def filterFAIL (m : Message) (c : Int) : Message × Int :=
  ({ m with out := m.msg }, c)

/-- the state of `m` when `_message_filter` starts processing the
response: `m->is_spam = EX_TOOBIG` and a fresh empty output buffer
(lines 660–664). -/
def filter_m0 (m_in : Message) : Message :=
  { m_in with is_spam := EX_TOOBIG, out := [] }

/-- the reset `m->score = 0; m->threshold = 0; m->is_spam = EX_TOOBIG`
performed after the status line is accepted (lines 733–735). -/
def filter_m1 (m0 : Message) : Message :=
  { m0 with score := 0, threshold := 0, is_spam := EX_TOOBIG }

/-- the status-line phase of `_message_filter` (lines 718–731): read one
line (stream exhausted is the reader's `EX_IOERR`, an over-long line its
`EX_TOOBIG`), require the `SPAMD/%s %d %*s` shape, and reject a version
below 1.0; on success hand back the remaining lines. -/
def spamc_parse_status (lines : List (List Char)) : Except Int (List (List Char)) :=
  match lines with
  | [] => .error EX_IOERR
  | sl :: rest =>
    if 8186 < sl.length then .error EX_TOOBIG
    else
      match sscanf_spamd_status sl with
      | none => .error EX_PROTOCOL
      | some (vers, _code) =>
        if locale_safe_string_to_float vers 20 < 1 then .error EX_PROTOCOL
        else .ok rest

/-- model of the response half of `_message_filter` (lines 718–792):
parse the status line, run the header loop, then either finish a
check-only call (requiring some verdict header to have arrived) or
receive and sanity-check the body.  On every failure `out` is pointed
back at `msg` (the `failure:` label). -/
def message_filter_response (flags : Flags) (m_in : Message) (resp : SpamdResponse) :
    Message × Int :=
  match spamc_parse_status resp.lines with
  | .error e => filterFAIL (filter_m0 m_in) e
  | .ok rest =>
    let hl := spamc_header_loop flags (filter_m1 (filter_m0 m_in)) rest
    if hl.2 ≠ EX_OK then filterFAIL hl.1 hl.2
    else if flags.checkOnly then
      if hl.1.is_spam = EX_TOOBIG then filterFAIL hl.1 EX_PROTOCOL
      else (hl.1, EX_OK)
    else
      spamc_body_receive { hl.1 with is_spam := EX_OUTPUTMESSAGE } resp.body

/-! ### `message_write`, `message_dump`, `message_process` -/

/-- the dot-stuffing inner loop of `message_write`'s BSMTP case (lines
462–477): fill the 1024-byte intermediate `buffer` (`jlimit = 1020`) from
position `i` of `out`, doubling the dot of every `"\n."` pair; a pair that
would not fit in the remaining space (`j > jlimit - 4`) flushes the chunk
first.  Returns the new read position and the chunk contents.  The first
argument is recursion fuel: every iteration grows `j` by at least one and
the loop stops once `j` reaches 1020, so 1021 units always run the loop
to its real exit. -/
def stuffChunk (out : List Char) : Nat → Nat → Nat → List Char → Nat × List Char
  | 0, i, _, chunk => (i, chunk)
  | fuel + 1, i, j, chunk =>
    if i < out.length ∧ j < 1020 then
      if i + 1 < out.length ∧ out.getD i ' ' = '\n' ∧ out.getD (i+1) ' ' = '.' then
        if 1016 < j then (i, chunk)
        else stuffChunk out fuel (i+2) (j+3) (chunk ++ ['\n', '.', '.'])
      else stuffChunk out fuel (i+1) (j+1) (chunk ++ [out.getD i ' '])
    else (i, chunk)

/-- the outer chunk loop of `message_write`'s BSMTP case: repeat
`stuffChunk` until `out` is exhausted, concatenating the flushed chunks.
Each pass consumes at least one byte (a chunk starts at `j = 0`, below the
overflow guard), so `out.length + 1` rounds of fuel always suffice. -/
def stuffAll (out : List Char) : Nat → Nat → List Char
  | _, 0 => []
  | i, fuel + 1 =>
    if i < out.length then
      let step := stuffChunk out 1021 i 0 []
      step.2 ++ stuffAll out step.1 fuel
    else []

/-- model of `message_write` (lines 432–486), returning the bytes written
(`none` is the `-1` error return): verdict messages and raw mode echo
`out`, error messages echo the raw capture, and BSMTP messages emit `pre`
verbatim, the dot-stuffed `out`, then `post` verbatim. -/
def message_write (m : Message) : Option (List Char) :=
  if m.is_spam = EX_ISSPAM ∨ m.is_spam = EX_NOTSPAM then some m.out
  else if m.is_spam ≠ EX_OUTPUTMESSAGE ∧ m.is_spam ≠ EX_TOOBIG then none
  else
    match m.type with
    | .NONE => none
    | .ERROR => some m.raw
    | .RAW => some m.out
    | .BSMTP => some (m.pre ++ stuffAll m.out 0 (m.out.length + 1) ++ m.post)

/-- model of `message_dump` (lines 488–500): replay the message whenever
its type is not `MESSAGE_NONE` (a failed `message_write` writes nothing),
then copy the rest of the input stream through to the output. -/
def message_dump (m : Message) (inputRest : List Char) : List Char :=
  (if m.type ≠ MsgType.NONE then (message_write m).getD [] else []) ++ inputRest

/-- outcomes of the stages `message_process` sequences; the message
values are the states those calls leave behind, and `inputRest` is
whatever is still buffered on the input descriptor. -/
structure ProcRun where
  lookupStatus : Int
  mAfterRead : Message
  readStatus : Int
  mAfterFilter : Message
  filterStatus : Int
  inputRest : List Char

/-- the `FAIL:` label of `message_process` (lines 862–871): a check-only
caller gets the fixed `"0/0\n"` record and `EX_NOTSPAM`; everyone else
gets `message_dump` and the failure code — the `SPAMC_SAFE_FALLBACK` flag
is not consulted. -/
def procFAIL (flags : Flags) (m : Message) (ret : Int) (inputRest : List Char) :
    List Char × Int :=
  if flags.checkOnly then ("0/0\n".data, EX_NOTSPAM)
  else (message_dump m inputRest, ret)

/-- model of `message_process` (lines 839–872) over the outcomes of its
stage calls: resolve, read, filter, write in order, short-circuiting to
the `FAIL:` label; result is the bytes written to the output descriptor
and the returned code. -/
def message_process (flags : Flags) (r : ProcRun) : List Char × Int :=
  let m0 : Message := { type := .NONE }
  if r.lookupStatus ≠ EX_OK then procFAIL flags m0 r.lookupStatus r.inputRest
  else if r.readStatus ≠ EX_OK then procFAIL flags r.mAfterRead r.readStatus r.inputRest
  else if r.filterStatus ≠ EX_OK then procFAIL flags r.mAfterFilter r.filterStatus r.inputRest
  else
    match message_write r.mAfterFilter with
    | none => procFAIL flags r.mAfterFilter r.filterStatus r.inputRest
    | some written =>
      if r.mAfterFilter.is_spam ≠ EX_TOOBIG then (written, r.mAfterFilter.is_spam)
      else (written, r.filterStatus)

/-! ### Connection establishment (`try_to_connect`, lines 226–317) -/

/-- the `errno` values distinguished by `try_to_connect`'s terminal
classification switch. -/
inductive CErrno where
  | ECONNREFUSED
  | ETIMEDOUT
  | ENETUNREACH
  | EACCES
  | EBADF
  | EFAULT
  | ENOTSOCK
  | EISCONN
  | EADDRINUSE
  | EINPROGRESS
  | EALREADY
  | EAFNOSUPPORT
  | EOTHER
deriving DecidableEq

/-- the classification switch over the copy of the last attempt's `errno`
(lines 297–316).  The `none` case models reading `origerr` when no
attempt ever failed — uninitialised in the C and unreachable here, since
the loop always runs `MAX_CONNECT_RETRIES > 0` attempts before reaching
the switch. -/
def classify_connect_errno : Option CErrno → Int
  | some .ECONNREFUSED => EX_UNAVAILABLE
  | some .ETIMEDOUT => EX_UNAVAILABLE
  | some .ENETUNREACH => EX_UNAVAILABLE
  | some .EACCES => EX_NOPERM
  | some _ => EX_SOFTWARE
  | none => EX_SOFTWARE

/-- result of the connect loop: the returned code, the `h_addr_list`
indices dialled in order, and whether the socket was closed before
returning (failure) or handed to the caller via `sockptr` (success). -/
structure ConnectOut where
  status : Int
  attempted : List Nat
  sockClosed : Bool
deriving DecidableEq

/-- the retry loop of `try_to_connect` (lines 226–290) on the copied
address list, with the environment's behaviour given by `connFail`
(`none` = that attempt's `connect()` succeeds, `some e` = it fails with
`errno = e`): attempt `numloops` dials `inaddrlist[numloops % hostnum]`,
success returns the socket at once, and exhausting the retries closes the
socket and classifies the last failure. -/
def try_to_connect_loop (hostnum : Nat) (connFail : Nat → Option CErrno) :
    Nat → Nat → Option CErrno → List Nat → ConnectOut
  | 0, _, origerr, tried => ⟨classify_connect_errno origerr, tried, true⟩
  | rem + 1, numloops, origerr, tried =>
    let idx := numloops % hostnum
    match connFail numloops with
    | none => ⟨EX_OK, tried ++ [idx], false⟩
    | some e => try_to_connect_loop hostnum connFail rem (numloops + 1) (some e) (tried ++ [idx])

/-- `try_to_connect` on a resolved address list of `hostnum` entries: the
loop is entered with its full budget of `MAX_CONNECT_RETRIES` attempts
(the loop counter is represented by the attempts remaining, which the C
counts upward as `numloops < MAX_CONNECT_RETRIES`). -/
def try_to_connect (hostnum : Nat) (connFail : Nat → Option CErrno) : ConnectOut :=
  try_to_connect_loop hostnum connFail MAX_CONNECT_RETRIES 0 none []

deriving instance DecidableEq for Except

/-! ### BSMTP framing (`message_read_bsmtp`, lines 355–414) -/

/-- the match condition of the DATA-line scan (lines 372–377): a newline
at `i`, the case-insensitive token `DATA`, then `CRLF` or a bare `LF`. -/
def dataPat (raw : List Char) (i : Nat) : Bool :=
  (raw[i]? == some '\n') &&
  (raw[i+1]? == some 'D' || raw[i+1]? == some 'd') &&
  (raw[i+2]? == some 'A' || raw[i+2]? == some 'a') &&
  (raw[i+3]? == some 'T' || raw[i+3]? == some 't') &&
  (raw[i+4]? == some 'A' || raw[i+4]? == some 'a') &&
  ((raw[i+5]? == some '\r' && raw[i+6]? == some '\n') || raw[i+5]? == some '\n')

/-- the scan loop `for(i=0; i<m->raw_len-6; i++)` (line 371): first match
position of `dataPat` at an index below `raw_len - 6`, if any.  The first
argument counts the positions still to try (`raw_len - 6 - i`). -/
def findDataLine_go (raw : List Char) : Nat → Nat → Option Nat
  | 0, _ => none
  | rem + 1, i => if dataPat raw i then some i else findDataLine_go raw rem (i+1)

/-- the DATA-line scan started at `i = 0`. -/
def findDataLine (raw : List Char) : Option Nat :=
  findDataLine_go raw (raw.length - 6) 0

/-- the framing half of `message_read_bsmtp` (lines 370–387), given the
captured buffer: split `raw` into `pre` (up to and including the DATA
line's terminator, lines 378–383) and the data section; `EX_DATAERR`
(`m->msg == NULL`) when the scan finds nothing. -/
def message_read_bsmtp_frame (raw : List Char) : Except Int (List Char × List Char) :=
  match findDataLine raw with
  | none => .error EX_DATAERR
  | some i =>
    let preLen := if raw[i+5]? = some '\r' then i + 7 else i + 6
    .ok (raw.take preLen, raw.drop preLen)

/-- result of the end-of-DATA / unstuffing loop: the compacted body
(`msg[0..j)`), the terminator-and-after bytes (`post`), the `(i, j)`
cursor pair at the top of every iteration, and `some k` when the C would
have read `msg[k]` beyond the data section (`oobIdx`). -/
structure UnstuffOut where
  body : List Char
  post : List Char
  trace : List (Nat × Nat)
  oobIdx : Option Nat
deriving DecidableEq

/-- the end-of-DATA loop of `message_read_bsmtp` (lines 389–408): an
in-place forward compaction over the data section.  A line-initial dot
checks `msg[i+1]` (and `msg[i+2]` when `msg[i+1]` is `'\r'`) for the
lone-dot terminator, drops the first dot of a doubled dot, and otherwise
copies bytes down to the write cursor `j`.  Where the C reads past
`msg_len`, the loop stops and reports the offending index in `oobIdx`.
The loop condition `i < msg_len` is the `some` case of `msg[i]?`; the
first argument is recursion fuel, with `msg.length - i` units exactly
covering the iterations left since `i` grows every iteration. -/
def unstuff_loop (msg : List Char) : Nat → Nat → Nat → Char → List Char → List (Nat × Nat) →
    UnstuffOut
  | 0, _, _, _, acc, tr => ⟨acc, [], tr, none⟩
  | fuel + 1, i, j, prev, acc, tr =>
    match msg[i]? with
    | none => ⟨acc, [], tr, none⟩
    | some c =>
      let tr1 := tr ++ [(i, j)]
      if prev = '\n' ∧ c = '.' then
        match msg[i+1]? with
        | none => ⟨acc, [], tr1, some (i+1)⟩
        | some c1 =>
          if c1 = '\r' then
            match msg[i+2]? with
            | none => ⟨acc, [], tr1, some (i+2)⟩
            | some c2 =>
              if c2 = '\n' then ⟨acc, msg.drop i, tr1, none⟩
              else unstuff_loop msg fuel (i+1) (j+1) c (acc ++ [c]) tr1
          else if c1 = '\n' then ⟨acc, msg.drop i, tr1, none⟩
          else if c1 = '.' then unstuff_loop msg fuel (i+1) j '.' acc tr1
          else unstuff_loop msg fuel (i+1) (j+1) c (acc ++ [c]) tr1
      else unstuff_loop msg fuel (i+1) (j+1) c (acc ++ [c]) tr1

/-- the unstuffing pass over a data section: the loop with `prev = '\n'`,
both cursors at 0, and its full fuel. -/
def unstuff (sec : List Char) : UnstuffOut :=
  unstuff_loop sec sec.length 0 0 '\n' [] []

/-- `message_read_bsmtp` from the captured buffer onward: frame at the
DATA line, then run the unstuffing loop over the data section. -/
def message_read_bsmtp (raw : List Char) : Except Int (List Char × UnstuffOut) :=
  match message_read_bsmtp_frame raw with
  | .error e => .error e
  | .ok (pre, sec) => .ok (pre, unstuff sec)

/-- reading a BSMTP capture and writing the resulting message straight
back out (`message_read_bsmtp` then `message_write` on the resulting
`MESSAGE_BSMTP` message, whose `out` aliases the compacted body). -/
def bsmtp_read_write (raw : List Char) : Except Int (List Char) :=
  match message_read_bsmtp raw with
  | .error e => .error e
  | .ok (pre, u) => .ok (pre ++ stuffAll u.body 0 (u.body.length + 1) ++ u.post)

/-! ## Theorems -/

/-- the over-limit exit of the body-receive stage: once the received
length passes `max_len + EXPANSION_ALLOWANCE`, the stage reports
`EX_TOOBIG` whatever the declared content length was. -/
theorem spamc_body_receive_overflow (m : Message) (avail : List Char)
    (h1 : ¬ m.content_length < 0)
    (h2 : m.max_len + EXPANSION_ALLOWANCE <
      min avail.length (m.max_len + EXPANSION_ALLOWANCE + 1)) :
    (spamc_body_receive m avail).2 = EX_TOOBIG := by
  unfold spamc_body_receive
  rw [if_neg h1, if_pos h2]

/-- C1: the spec requires every response header line matching neither the
verdict form nor the `Content-length` form to abort the filter call with
a `Protocol` failure, and `_handle_spamd_header` indeed answers
`EX_PROTOCOL` (76) for such a line — but `_message_filter` tests that
answer with `< 0`, which no `sysexits` code satisfies, so the
unrecognised header is silently skipped: the very response containing it
completes with `EX_OK`.  The code contradicts its own error report
(`"spamd responded with bad header"`). -/
theorem c1_unrecognised_header_silently_skipped :
    (handle_spamd_header {} { checkOnly := true } "X-Whatever: foo".data).2 = EX_PROTOCOL ∧
    (spamc_header_loop { checkOnly := true } {}
        ["X-Whatever: foo".data, "Spam: False ; 2 / 5".data, []]).2 = EX_OK ∧
    (message_filter_response { checkOnly := true } {}
        ⟨["SPAMD/1 0 EX_OK".data, "X-Whatever: foo".data, "Spam: False ; 2 / 5".data, []],
          []⟩).2 = EX_OK :=
  ⟨by decide, by decide, by decide⟩

/-- C2 counterexample: a response declaring `Content-length: 5` whose
body delivers `max_len + EXPANSION_ALLOWANCE + 1` bytes fails the filter
call with `EX_TOOBIG`, not with the `EX_PROTOCOL` the claim demands for
every received-length mismatch. -/
theorem c2_counterexample_overlimit_mismatch_is_toobig :
    (spamc_body_receive { msg := "M".data, content_length := 5, max_len := 0 }
        (List.replicate 16385 'a')).2 = EX_TOOBIG ∧
    (spamc_body_receive { msg := "M".data, content_length := 5, max_len := 0 }
        (List.replicate 16385 'a')).2 ≠ EX_PROTOCOL ∧
    ((List.replicate 16385 'a').length : Int) ≠
      (({ msg := "M".data, content_length := 5, max_len := 0 } : Message)).content_length := by
  have h := spamc_body_receive_overflow
    { msg := "M".data, content_length := 5, max_len := 0 } (List.replicate 16385 'a')
    (by decide) (by rw [List.length_replicate]; decide)
  exact ⟨h, by rw [h]; decide, by rw [List.length_replicate]; decide⟩

/-- C3: the spec's dot-stuffing round-trip law fails when the body's very
first line begins with a dot: `message_read_bsmtp` unstuffs the leading
`".."` of the data section (its `prev` starts as `'\n'`), but
`message_write` doubles a dot only after a `'\n'` seen *inside* the body,
so the first body line is written back without its escape and the
re-serialized transcript differs from the capture. -/
theorem c3_first_line_dot_breaks_roundtrip :
    (unstuff "..A\n.\n".data).body = ".A\n".data ∧
    (unstuff "..A\n.\n".data).post = ".\n".data ∧
    stuffAll ".A\n".data 0 (".A\n".data.length + 1) = ".A\n".data ∧
    bsmtp_read_write "x\nDATA\n..A\n.\n".data = .ok "x\nDATA\n.A\n.\n".data ∧
    "x\nDATA\n.A\n.\n".data ≠ "x\nDATA\n..A\n.\n".data :=
  ⟨by decide, by decide, by decide, by decide, by decide⟩

/-- C4: with safe-fallback disabled, a connect-stage failure is still
followed by a full replay of the captured message on the output —
`message_process`'s `FAIL:` path calls `message_dump` without ever
consulting the `SPAMC_SAFE_FALLBACK` flag its callers set — so the
claim's "no output body, only the drain" does not hold (here the drain
alone would be `"R"`, but `"MR"` is written); the failure classification
is returned as claimed. -/
theorem c4_strict_mode_still_replays_message :
    message_process { checkOnly := false, safeFallback := false }
        ⟨EX_OK, {}, EX_OK, { type := .RAW, msg := "M".data, out := "M".data },
          EX_UNAVAILABLE, "R".data⟩ = ("MR".data, EX_UNAVAILABLE) ∧
    ("MR".data : List Char) ≠ "R".data :=
  ⟨by decide, by decide⟩

/-- C7 counterexample: trailing garbage after the fractional digit run is
*not* value-neutral: each garbage character still multiplies the divider,
so `"3.5x"` parses to `3 + 5/100 = 3.05` rather than the claimed `3.5`. -/
theorem c7_counterexample_garbage_shrinks_fraction :
    locale_safe_string_to_float "3.5x".data 20 = 3.05 ∧ (3.05 : ℚ) ≠ 3.5 := by
  constructor
  · have h1 : strtol ['3', '.', '5', 'x'] = (3, ['.', '5', 'x']) := by decide
    have h2 : strtol ['5', 'x'] = (5, ['x']) := by decide
    simp [locale_safe_string_to_float, h1, h2]
    norm_num
  · norm_num

/-- C8 counterexample: a capture whose very first line is the
LF-terminated token `DATA` is *not* recognised — the scan only matches a
`DATA` line preceded by a `'\n'` inside the buffer — so framing fails
with `EX_DATAERR` even though the claimed "first line of the buffer" case
plainly holds. -/
theorem c8_counterexample_first_line_data_missed :
    message_read_bsmtp_frame "DATA\nx\n.\n".data = .error EX_DATAERR ∧
    "DATA\nx\n.\n".data.take 5 = "DATA\n".data :=
  ⟨by decide, by decide⟩

/-- C10: with `Option`-returning indexing, a data section whose final
byte is a line-initial dot drives the lone-dot probe out of range: for
the capture `"x\nDATA\n."` the section is the single byte `"."`, and the
loop's very first iteration reads index 1 of a section of length 1
(`oobIdx = some 1`) — in the C this is a read past the received data,
and past the allocation when `raw_len = max_len` and the stray byte
happens to be `'\r'`. -/
theorem c10_lone_dot_probe_reads_past_section :
    message_read_bsmtp "x\nDATA\n.".data =
      .ok ("x\nDATA\n".data, ⟨[], [], [(0, 0)], some 1⟩) ∧
    ("x\nDATA\n.".data.drop 7).length = 1 :=
  ⟨by decide, by decide⟩

/-- C5: whichever stage of a check-only call fails — resolution, read,
filter, or even the final write — `message_process`'s `FAIL:` path writes
the fixed `"0/0\n"` summary record and returns `EX_NOTSPAM`, never a
hard-failure code. -/
theorem c5_check_only_failure_yields_zero_zero_notspam :
    ∀ (flags : Flags) (r : ProcRun), flags.checkOnly = true →
      (r.lookupStatus ≠ EX_OK ∨ r.readStatus ≠ EX_OK ∨ r.filterStatus ≠ EX_OK ∨
        message_write r.mAfterFilter = none) →
      message_process flags r = ("0/0\n".data, EX_NOTSPAM) := by
  intro flags r hco hfail
  unfold message_process
  by_cases h1 : r.lookupStatus = EX_OK
  · by_cases h2 : r.readStatus = EX_OK
    · by_cases h3 : r.filterStatus = EX_OK
      · rcases hfail with h | h | h | h
        · exact absurd h1 h
        · exact absurd h2 h
        · exact absurd h3 h
        · simp [h1, h2, h3, h, procFAIL, hco]
      · simp [h1, h2, h3, procFAIL, hco]
    · simp [h1, h2, procFAIL, hco]
  · simp [h1, procFAIL, hco]

/-- C5 witness: a check-only call whose resolution stage fails with
`EX_UNAVAILABLE` outputs exactly `"0/0\n"` and returns `EX_NOTSPAM`. -/
theorem c5_check_only_failure_witness :
    message_process { checkOnly := true }
      ⟨EX_UNAVAILABLE, {}, EX_OK, {}, EX_OK, []⟩ = ("0/0\n".data, EX_NOTSPAM) :=
  c5_check_only_failure_yields_zero_zero_notspam { checkOnly := true }
    ⟨EX_UNAVAILABLE, {}, EX_OK, {}, EX_OK, []⟩ rfl (Or.inl (by decide))

/-- C6: over a non-empty candidate list, attempt `k` of the connect loop
dials address `k % n`; the first successful attempt returns at once with
the socket open, having dialled exactly attempts `0..j`; if all
`MAX_CONNECT_RETRIES` attempts fail, the socket is closed and the *last*
attempt's errno is classified (refused/timeout/unreachable ↦
`EX_UNAVAILABLE`, `EACCES` ↦ `EX_NOPERM`, the rest ↦ `EX_SOFTWARE`); in
particular three all-refusing addresses with the retry budget of 3 get
dialled once each and yield `EX_UNAVAILABLE`. -/
theorem c6_connect_rotation_and_classification :
    ∀ (n : Nat) (connFail : Nat → Option CErrno), 0 < n →
      ((∀ k, k < MAX_CONNECT_RETRIES → connFail k ≠ none) →
        try_to_connect n connFail =
          ⟨classify_connect_errno (connFail 2), [0 % n, 1 % n, 2 % n], true⟩) ∧
      (∀ j, j < MAX_CONNECT_RETRIES → connFail j = none → (∀ i, i < j → connFail i ≠ none) →
        try_to_connect n connFail =
          ⟨EX_OK, (List.range (j + 1)).map (fun k => k % n), false⟩) ∧
      (classify_connect_errno (some .ECONNREFUSED) = EX_UNAVAILABLE ∧
        classify_connect_errno (some .ETIMEDOUT) = EX_UNAVAILABLE ∧
        classify_connect_errno (some .ENETUNREACH) = EX_UNAVAILABLE ∧
        classify_connect_errno (some .EACCES) = EX_NOPERM) ∧
      ((∀ k, connFail k = some CErrno.ECONNREFUSED) → n = 3 →
        try_to_connect n connFail = ⟨EX_UNAVAILABLE, [0, 1, 2], true⟩ ∧
          ∀ a, a < n → a ∈ (try_to_connect n connFail).attempted) := by
  intro n connFail _hn
  refine ⟨?_, ?_, by decide, ?_⟩
  · intro hall
    rcases hf0 : connFail 0 with _ | e0
    · exact absurd hf0 (hall 0 (by decide))
    rcases hf1 : connFail 1 with _ | e1
    · exact absurd hf1 (hall 1 (by decide))
    rcases hf2 : connFail 2 with _ | e2
    · exact absurd hf2 (hall 2 (by decide))
    simp [try_to_connect, MAX_CONNECT_RETRIES, try_to_connect_loop, hf0, hf1, hf2]
  · intro j hj hok hbefore
    have hj3 : j < 3 := hj
    interval_cases j
    · simp [try_to_connect, MAX_CONNECT_RETRIES, try_to_connect_loop, hok,
        List.range_succ, List.range_zero]
    · rcases hf0 : connFail 0 with _ | e0
      · exact absurd hf0 (hbefore 0 (by decide))
      simp [try_to_connect, MAX_CONNECT_RETRIES, try_to_connect_loop, hf0, hok,
        List.range_succ, List.range_zero]
    · rcases hf0 : connFail 0 with _ | e0
      · exact absurd hf0 (hbefore 0 (by decide))
      rcases hf1 : connFail 1 with _ | e1
      · exact absurd hf1 (hbefore 1 (by decide))
      simp [try_to_connect, MAX_CONNECT_RETRIES, try_to_connect_loop, hf0, hf1, hok,
        List.range_succ, List.range_zero]
  · intro hf hn3
    subst hn3
    constructor
    · simp [try_to_connect, MAX_CONNECT_RETRIES, try_to_connect_loop, hf]
      decide
    · intro a ha
      simp [try_to_connect, MAX_CONNECT_RETRIES, try_to_connect_loop, hf]
      interval_cases a <;> simp

/-- C6 witness: three addresses, every attempt refused: each address is
dialled once, in order, and the outcome is `EX_UNAVAILABLE` with the
socket closed. -/
theorem c6_connect_rotation_witness :
    try_to_connect 3 (fun _ => some CErrno.ECONNREFUSED) =
      ⟨EX_UNAVAILABLE, [0, 1, 2], true⟩ :=
  ((c6_connect_rotation_and_classification 3 (fun _ => some CErrno.ECONNREFUSED)
    (by decide)).2.2.2 (fun _ => rfl) rfl).1

/-- invariant of the unstuffing loop: if the write cursor is at or behind
the read cursor, the accumulated body has exactly `j` bytes and at most
the section's length, and every traced cursor pair so far is ordered,
then every traced pair of the whole run is ordered and the final body
fits in the section. -/
theorem unstuff_loop_inv (msg : List Char) :
    ∀ (fuel i j : Nat) (prev : Char) (acc : List Char) (tr : List (Nat × Nat)),
      j ≤ i → acc.length = j → j ≤ msg.length →
      (∀ p ∈ tr, p.2 ≤ p.1) →
      (∀ p ∈ (unstuff_loop msg fuel i j prev acc tr).trace, p.2 ≤ p.1) ∧
      (unstuff_loop msg fuel i j prev acc tr).body.length ≤ msg.length := by
  intro fuel
  induction fuel with
  | zero =>
    intro i j prev acc tr hji hlen hjm htr
    exact ⟨htr, by simp [unstuff_loop, hlen, hjm]⟩
  | succ fuel ih =>
    intro i j prev acc tr hji hlen hjm htr
    have htr1 : ∀ p ∈ tr ++ [(i, j)], p.2 ≤ p.1 := by
      intro p hp
      rcases List.mem_append.mp hp with h | h
      · exact htr p h
      · simp at h; simp [h, hji]
    rcases hc : msg[i]? with _ | c
    · exact ⟨by simpa [unstuff_loop, hc] using htr, by simp [unstuff_loop, hc, hlen, hjm]⟩
    have hilt : i < msg.length := by
      by_contra hge
      rw [List.getElem?_eq_none (Nat.le_of_not_lt hge)] at hc
      exact Option.noConfusion hc
    have hjm1 : j + 1 ≤ msg.length := Nat.lt_of_le_of_lt hji hilt
    by_cases hpc : prev = '\n' ∧ c = '.'
    · rcases hc1 : msg[i+1]? with _ | c1
      · exact ⟨by simpa [unstuff_loop, hc, hpc, hc1] using htr1,
          by simp [unstuff_loop, hc, hpc, hc1, hlen]; omega⟩
      by_cases hr : c1 = '\r'
      · rcases hc2 : msg[i+2]? with _ | c2
        · exact ⟨by simpa [unstuff_loop, hc, hpc, hc1, hr, hc2] using htr1,
            by simp [unstuff_loop, hc, hpc, hc1, hr, hc2, hlen]; omega⟩
        by_cases hn2 : c2 = '\n'
        · exact ⟨by simpa [unstuff_loop, hc, hpc, hc1, hr, hc2, hn2] using htr1,
            by simp [unstuff_loop, hc, hpc, hc1, hr, hc2, hn2, hlen]; omega⟩
        · have := ih (i+1) (j+1) c (acc ++ [c]) (tr ++ [(i, j)])
            (by omega) (by simp [hlen]) hjm1 htr1
          simpa [unstuff_loop, hc, hpc, hc1, hr, hc2, hn2] using this
      by_cases hn1 : c1 = '\n'
      · exact ⟨by simpa [unstuff_loop, hc, hpc, hc1, hr, hn1] using htr1,
          by simp [unstuff_loop, hc, hpc, hc1, hr, hn1, hlen]; omega⟩
      by_cases hd1 : c1 = '.'
      · have := ih (i+1) j '.' acc (tr ++ [(i, j)]) (by omega) hlen hjm htr1
        simpa [unstuff_loop, hc, hpc, hc1, hr, hn1, hd1] using this
      · have := ih (i+1) (j+1) c (acc ++ [c]) (tr ++ [(i, j)])
          (by omega) (by simp [hlen]) hjm1 htr1
        simpa [unstuff_loop, hc, hpc, hc1, hr, hn1, hd1] using this
    · have := ih (i+1) (j+1) c (acc ++ [c]) (tr ++ [(i, j)])
        (by omega) (by simp [hlen]) hjm1 htr1
      simpa [unstuff_loop, hc, hpc] using this

/-- C9: throughout the unstuffing loop the write index `j` never exceeds
the read index `i` — every `(i, j)` pair observed at the top of an
iteration satisfies `j ≤ i` — and consequently the compacted body never
outgrows the data section it is written into. -/
theorem c9_write_cursor_never_overtakes_read_cursor :
    ∀ sec : List Char,
      (∀ p ∈ (unstuff sec).trace, p.2 ≤ p.1) ∧
      (unstuff sec).body.length ≤ sec.length := fun sec =>
  unstuff_loop_inv sec sec.length 0 0 '\n' [] [] (Nat.le_refl 0) rfl (Nat.zero_le _)
    (by simp)

/-- C9 witness: the invariant at a concrete stuffed section. -/
theorem c9_write_cursor_witness :
    (∀ p ∈ (unstuff "a\n..b\n.\nQ".data).trace, p.2 ≤ p.1) ∧
    (unstuff "a\n..b\n.\nQ".data).body.length ≤ "a\n..b\n.\nQ".data.length :=
  c9_write_cursor_never_overtakes_read_cursor "a\n..b\n.\nQ".data

/-- the DATA scan finds nothing over its window exactly when no window
position matches. -/
theorem findDataLine_go_eq_none (raw : List Char) :
    ∀ (rem i : Nat), findDataLine_go raw rem i = none ↔
      ∀ k, i ≤ k → k < i + rem → dataPat raw k = false := by
  intro rem
  induction rem with
  | zero =>
    intro i
    constructor
    · intro _ k hk1 hk2; omega
    · intro _; rfl
  | succ rem ih =>
    intro i
    constructor
    · intro h k hk1 hk2
      rw [findDataLine_go] at h
      by_cases hp : dataPat raw i
      · simp [hp] at h
      · simp [hp] at h
        rcases Nat.eq_or_lt_of_le hk1 with rfl | hlt
        · simpa using hp
        · exact (ih (i+1)).mp h k hlt (by omega)
    · intro h
      rw [findDataLine_go]
      have hp : dataPat raw i = false := h i (Nat.le_refl i) (by omega)
      simp [hp]
      exact (ih (i+1)).mpr (fun k hk1 hk2 => h k (by omega) (by omega))

/-- when the DATA scan returns a position, it is the first matching
position in its window. -/
theorem findDataLine_go_eq_some (raw : List Char) :
    ∀ (rem i j : Nat), findDataLine_go raw rem i = some j →
      i ≤ j ∧ j < i + rem ∧ dataPat raw j = true ∧
        ∀ k, i ≤ k → k < j → dataPat raw k = false := by
  intro rem
  induction rem with
  | zero => intro i j h; exact absurd h (by simp [findDataLine_go])
  | succ rem ih =>
    intro i j h
    rw [findDataLine_go] at h
    by_cases hp : dataPat raw i
    · simp [hp] at h
      exact ⟨by omega, by omega, by simp [h ▸ hp], fun k hk1 hk2 => by omega⟩
    · simp [hp] at h
      obtain ⟨h1, h2, h3, h4⟩ := ih (i+1) j h
      refine ⟨by omega, by omega, h3, fun k hk1 hk2 => ?_⟩
      rcases Nat.eq_or_lt_of_le hk1 with rfl | hlt
      · simpa using hp
      · exact h4 k hlt hk2

/-- C8 (amended): the framing pass recognises the *first* position `i`
with `i < raw_len - 6` where a `'\n'` is followed by the case-insensitive
token `DATA` and a `CRLF`/`LF` terminator — so the DATA line must be
preceded by a newline (a DATA line that is the buffer's first line is
missed), and an LF-terminated DATA line ending at the capture's final
byte is also missed (`i = raw_len - 6` falls outside the scan bound);
`pre` is the bytes up to and including the recognised terminator, and
`EX_DATAERR` results exactly when no position in the scan window
matches. -/
theorem c8_amended_data_scan_characterisation :
    ∀ raw : List Char,
      (message_read_bsmtp_frame raw = .error EX_DATAERR ↔
        ∀ i, i < raw.length - 6 → dataPat raw i = false) ∧
      (∀ pre rest, message_read_bsmtp_frame raw = .ok (pre, rest) →
        ∃ i, i < raw.length - 6 ∧ dataPat raw i = true ∧
          (∀ k, k < i → dataPat raw k = false) ∧
          pre = raw.take (if raw[i+5]? = some '\r' then i + 7 else i + 6) ∧
          rest = raw.drop (if raw[i+5]? = some '\r' then i + 7 else i + 6)) := by
  intro raw
  rcases h : findDataLine raw with _ | j
  · constructor
    · rw [message_read_bsmtp_frame, h]
      constructor
      · intro _ i hi
        exact (findDataLine_go_eq_none raw (raw.length - 6) 0).mp h i (Nat.zero_le i)
          (by omega)
      · intro _; rfl
    · intro pre rest hok
      rw [message_read_bsmtp_frame, h] at hok
      exact absurd hok (by simp)
  · obtain ⟨h1, h2, h3, h4⟩ := findDataLine_go_eq_some raw (raw.length - 6) 0 j h
    constructor
    · rw [message_read_bsmtp_frame, h]
      constructor
      · intro hcontra
        exact absurd hcontra (by simp)
      · intro hall
        exact absurd h3 (by simp [hall j (by omega)])
    · intro pre rest hok
      rw [message_read_bsmtp_frame, h] at hok
      refine ⟨j, by omega, h3, fun k hk => h4 k (Nat.zero_le k) hk, ?_, ?_⟩
      · exact (Prod.mk.injEq _ _ _ _ ▸ (Except.ok.injEq _ _ ▸ hok)).1.symm
      · exact (Prod.mk.injEq _ _ _ _ ▸ (Except.ok.injEq _ _ ▸ hok)).2.symm

/-- C8 witness: a capture without any DATA line fails framing with
`EX_DATAERR`. -/
theorem c8_amended_witness :
    message_read_bsmtp_frame "hello world\n".data = .error EX_DATAERR :=
  (c8_amended_data_scan_characterisation "hello world\n".data).1.mpr (by decide)


/-- the body-receive stage only reports `EX_OK` when the received byte
count equals the declared content length. -/
theorem spamc_body_receive_ok_length (m : Message) (avail : List Char)
    (h : (spamc_body_receive m avail).2 = EX_OK) :
    ((spamc_body_receive m avail).1.out.length : Int) =
      (spamc_body_receive m avail).1.content_length := by
  simp only [spamc_body_receive] at h ⊢
  split_ifs at h ⊢ with h1 h2 h3
  · exact absurd h (by simp [EX_PROTOCOL, EX_OK])
  · exact absurd h (by simp [EX_TOOBIG, EX_OK])
  · exact absurd h (by simp [EX_PROTOCOL, EX_OK])
  · push_neg at h3; exact h3

/-- the body-receive stage never changes the declared content length. -/
theorem spamc_body_receive_content_length (m : Message) (avail : List Char) :
    (spamc_body_receive m avail).1.content_length = m.content_length := by
  simp only [spamc_body_receive]
  split_ifs <;> rfl

/-- every failure of the status-line phase carries a code other than
`EX_OK`. -/
theorem spamc_parse_status_error_ne_ok (lines : List (List Char)) (e : Int)
    (h : spamc_parse_status lines = .error e) : e ≠ EX_OK := by
  rcases lines with _ | ⟨sl, rest⟩
  · simp [spamc_parse_status] at h; subst h; decide
  · by_cases h1 : 8186 < sl.length
    · simp [spamc_parse_status, h1] at h; subst h; decide
    · rcases hs : sscanf_spamd_status sl with _ | ⟨vers, code⟩
      · simp [spamc_parse_status, h1, hs] at h; subst h; decide
      · by_cases hv : locale_safe_string_to_float vers 20 < 1
        · simp [spamc_parse_status, h1, hs, hv] at h; subst h; decide
        · simp [spamc_parse_status, h1, hs, hv] at h

/-- a successful non-check-only filter call necessarily ran the
body-receive stage on the response body. -/
theorem message_filter_response_ok_shape (flags : Flags) (m : Message) (resp : SpamdResponse)
    (hco : flags.checkOnly = false)
    (hok : (message_filter_response flags m resp).2 = EX_OK) :
    ∃ rest, spamc_parse_status resp.lines = .ok rest ∧
      message_filter_response flags m resp =
        spamc_body_receive
          { (spamc_header_loop flags (filter_m1 (filter_m0 m)) rest).1 with
              is_spam := EX_OUTPUTMESSAGE } resp.body := by
  rcases hp : spamc_parse_status resp.lines with e | rest
  · exfalso
    have hne := spamc_parse_status_error_ne_ok _ _ hp
    rw [message_filter_response, hp] at hok
    exact hne (by simpa [filterFAIL] using hok)
  · refine ⟨rest, rfl, ?_⟩
    rw [message_filter_response, hp] at hok ⊢
    by_cases hhl : (spamc_header_loop flags (filter_m1 (filter_m0 m)) rest).2 ≠ EX_OK
    · exfalso
      simp only [if_pos hhl, filterFAIL] at hok
      exact hhl hok
    · simp [hhl, hco]

/-- C2 (amended): a missing `Content-length` (still `-1`) makes the body
stage fail with `EX_PROTOCOL`; a successful body stage — and hence any
successful non-check-only filter call — delivers exactly the declared
number of bytes; and a received count different from the declaration is
always a failure: `EX_PROTOCOL`, except that a body exceeding
`max_len + EXPANSION_ALLOWANCE` is reported as `EX_TOOBIG` instead.
Truncated or padded output is never passed off as success. -/
theorem c2_amended_mismatch_never_success :
    ∀ (flags : Flags) (m : Message) (resp : SpamdResponse),
      (m.content_length < 0 → (spamc_body_receive m resp.body).2 = EX_PROTOCOL) ∧
      ((spamc_body_receive m resp.body).2 = EX_OK →
        ((spamc_body_receive m resp.body).1.out.length : Int) = m.content_length) ∧
      (0 ≤ m.content_length →
        ((min resp.body.length (m.max_len + EXPANSION_ALLOWANCE + 1) : Int) ≠
          m.content_length) →
        (spamc_body_receive m resp.body).2 = EX_PROTOCOL ∨
          (spamc_body_receive m resp.body).2 = EX_TOOBIG) ∧
      (flags.checkOnly = false → (message_filter_response flags m resp).2 = EX_OK →
        ((message_filter_response flags m resp).1.out.length : Int) =
          (message_filter_response flags m resp).1.content_length) := by
  intro flags m resp
  refine ⟨?_, ?_, ?_, ?_⟩
  · intro h
    simp only [spamc_body_receive]
    rw [if_pos h]
  · intro h
    have := spamc_body_receive_ok_length m resp.body h
    rwa [spamc_body_receive_content_length] at this
  · intro h0 hne
    simp only [spamc_body_receive]
    split_ifs with h1 h2 h3
    · exact absurd h1 (by omega)
    · exact Or.inr rfl
    · exact Or.inl rfl
    · exfalso
      push_neg at h3
      rw [List.length_take] at h3
      omega
  · intro hco hok
    obtain ⟨rest, hp, heq⟩ := message_filter_response_ok_shape flags m resp hco hok
    rw [heq] at hok ⊢
    exact spamc_body_receive_ok_length _ _ hok

/-- C2 witness: a well-formed run (declared length 3, body `"abc"`)
really does hand back as many output bytes as the response declared. -/
theorem c2_amended_witness :
    ((message_filter_response {} { msg := "M".data, content_length := -1, max_len := 100 }
        ⟨["SPAMD/1 0 EX_OK".data, "Content-length: 3".data, []],
          "abc".data⟩).1.out.length : Int) =
      (message_filter_response {} { msg := "M".data, content_length := -1, max_len := 100 }
        ⟨["SPAMD/1 0 EX_OK".data, "Content-length: 3".data, []],
          "abc".data⟩).1.content_length :=
  (c2_amended_mismatch_never_success {}
    { msg := "M".data, content_length := -1, max_len := 100 }
    ⟨["SPAMD/1 0 EX_OK".data, "Content-length: 3".data, []], "abc".data⟩).2.2.2 rfl
    (by decide)

/-- a decimal digit character is not `strtol` whitespace, a sign, or a dot. -/
theorem isDigit_facts (c : Char) (h : c.isDigit = true) :
    isSpaceC c = false ∧ c ≠ '-' ∧ c ≠ '+' ∧ c ≠ '.' := by
  refine ⟨?_, ?_, ?_, ?_⟩
  · by_contra hc
    rw [Bool.not_eq_false] at hc
    simp only [isSpaceC, Bool.or_eq_true, decide_eq_true_eq] at hc
    rcases hc with ((((rfl | rfl) | rfl) | rfl) | rfl) | rfl <;> exact absurd h (by decide)
  · rintro rfl; exact absurd h (by decide)
  · rintro rfl; exact absurd h (by decide)
  · rintro rfl; exact absurd h (by decide)

/-- a maximal digit run followed by a non-digit splits `takeWhile`/`dropWhile`. -/
theorem takeWhile_digits_append :
    ∀ (d rest : List Char), (∀ c ∈ d, c.isDigit = true) →
      (∀ c, rest.head? = some c → c.isDigit = false) →
      (d ++ rest).takeWhile Char.isDigit = d ∧
        (d ++ rest).dropWhile Char.isDigit = rest := by
  intro d
  induction d with
  | nil =>
    intro rest _ hr
    rcases rest with _ | ⟨c, t⟩
    · simp
    · have hc := hr c rfl
      simp [List.takeWhile_cons, List.dropWhile_cons, hc]
  | cons c0 d' ih =>
    intro rest hd hr
    have hc0 : c0.isDigit = true := hd c0 (by simp)
    have hih := ih rest (fun c hc => hd c (by simp [hc])) hr
    simp [List.takeWhile_cons, List.dropWhile_cons, hc0, hih.1, hih.2]

/-- `strtol` on a digit run followed by non-digit text parses exactly the run. -/
theorem strtol_pos_digits (d rest : List Char) (hne : d ≠ [])
    (hd : ∀ c ∈ d, c.isDigit = true)
    (hr : ∀ c, rest.head? = some c → c.isDigit = false) :
    strtol (d ++ rest) = (digitsVal d, rest) := by
  rcases d with _ | ⟨c0, d'⟩
  · exact absurd rfl hne
  have hc0 : c0.isDigit = true := hd c0 (by simp)
  obtain ⟨hsp, hm, hp, _⟩ := isDigit_facts c0 hc0
  have htw := takeWhile_digits_append (c0 :: d') rest hd hr
  simp only [List.cons_append] at htw
  simp only [strtol, List.cons_append, List.dropWhile_cons, hsp, Bool.false_eq_true,
    if_false, List.head?_cons, htw.1, htw.2]
  simp [hm, hp, hc0, htw.1, htw.2]

/-- `strtol` on a minus sign and a digit run negates the run value. -/
theorem strtol_neg_digits (d rest : List Char) (hne : d ≠ [])
    (hd : ∀ c ∈ d, c.isDigit = true)
    (hr : ∀ c, rest.head? = some c → c.isDigit = false) :
    strtol ('-' :: (d ++ rest)) = (-(digitsVal d), rest) := by
  have htw := takeWhile_digits_append d rest hd hr
  simp only [strtol, List.dropWhile_cons, show isSpaceC '-' = false from by decide,
    Bool.false_eq_true, if_false, List.head?_cons, List.tail_cons, htw.1, htw.2]
  simp [hne, htw.1, htw.2]

/-- `strtol` with no leading digit converts nothing and resets to the input start. -/
theorem strtol_nodigit (l : List Char)
    (hl : ∀ c, l.head? = some c →
      c.isDigit = false ∧ isSpaceC c = false ∧ c ≠ '-' ∧ c ≠ '+') :
    strtol l = (0, l) := by
  rcases l with _ | ⟨c, t⟩
  · decide
  obtain ⟨hdig, hsp, hm, hp⟩ := hl c rfl
  simp only [strtol, List.dropWhile_cons, hsp, Bool.false_eq_true, if_false,
    List.head?_cons, List.takeWhile_cons, hdig]
  simp [hm, hp, hdig]



/-- without a dot after the integer run the parser returns the integer value,
whatever trailing text follows. -/
theorem lssf_no_dot (d g : List Char) (hne : d ≠ [])
    (hd : ∀ c ∈ d, c.isDigit = true)
    (hg : ∀ c, g.head? = some c → c.isDigit = false ∧ c ≠ '.')
    (hlen : (d ++ g).length ≤ 19) :
    locale_safe_string_to_float (d ++ g) 20 = (digitsVal d : ℚ) := by
  have htake : (d ++ g).take (20 - 1) = d ++ g := List.take_of_length_le (by simpa using hlen)
  have hst := strtol_pos_digits d g hne hd (fun c hc => (hg c hc).1)
  have hghead : g.head? ≠ some '.' := by
    rcases hgc : g.head? with _ | c
    · simp
    · simpa [hgc] using (hg c hgc).2
  simp only [locale_safe_string_to_float, htake, hst]
  simp [hghead]

/-- with a dot, the parser adds (or, for a negative token, subtracts) the
fractional digit-run value divided by 10 to the power of the count of *all*
characters after the dot, garbage included. -/
theorem lssf_dotted (d f g : List Char) (hne : d ≠ [])
    (hd : ∀ c ∈ d, c.isDigit = true)
    (hf : ∀ c ∈ f, c.isDigit = true)
    (hg : ∀ c, g.head? = some c →
      c.isDigit = false ∧ isSpaceC c = false ∧ c ≠ '-' ∧ c ≠ '+') :
    ((d ++ '.' :: (f ++ g)).length ≤ 19 →
      locale_safe_string_to_float (d ++ '.' :: (f ++ g)) 20 =
        (digitsVal d : ℚ) + (digitsVal f : ℚ) / 10 ^ (f.length + g.length)) ∧
    (('-' :: (d ++ '.' :: (f ++ g))).length ≤ 19 →
      locale_safe_string_to_float ('-' :: (d ++ '.' :: (f ++ g))) 20 =
        -(digitsVal d : ℚ) - (digitsVal f : ℚ) / 10 ^ (f.length + g.length)) := by
  have hdothead : ∀ c : Char, ('.' :: (f ++ g)).head? = some c → c.isDigit = false := by
    intro c hc
    simp at hc
    subst hc
    decide
  have hcp : strtol (f ++ g) = (digitsVal f, g) := by
    rcases f with _ | ⟨c1, f'⟩
    · simpa using strtol_nodigit g hg
    · exact strtol_pos_digits (c1 :: f') g (by simp) hf (fun c hc => (hg c hc).1)
  have hdhead : ∀ c' ∈ d, c' ≠ '-' := fun c' hc' => (isDigit_facts c' (hd c' hc')).2.1
  constructor
  · intro hlen
    have htake : (d ++ '.' :: (f ++ g)).take (20 - 1) = d ++ '.' :: (f ++ g) :=
      List.take_of_length_le (by simpa using hlen)
    have hst := strtol_pos_digits d ('.' :: (f ++ g)) hne hd hdothead
    have hdh : d.head? ≠ some '-' := by
      rcases d with _ | ⟨c0, d'⟩
      · exact absurd rfl hne
      · simpa using hdhead c0 (by simp)
    simp only [locale_safe_string_to_float, htake, hst]
    by_cases hpd : (digitsVal f : ℚ) = 0
    · simp [hcp, hpd, hdh, List.length_append]
      try ring
    · simp [hcp, hpd, hdh, List.length_append]
      try ring
  · intro hlen
    have htake : ('-' :: (d ++ '.' :: (f ++ g))).take (20 - 1) = '-' :: (d ++ '.' :: (f ++ g)) :=
      List.take_of_length_le (by simpa using hlen)
    have hst := strtol_neg_digits d ('.' :: (f ++ g)) hne hd hdothead
    simp only [locale_safe_string_to_float, htake, hst]
    by_cases hpd : (digitsVal f : ℚ) = 0
    · simp [hcp, hpd, List.length_append]
      try ring
    · simp [hcp, hpd, List.length_append]
      try ring



/-- C7 (amended): the parser returns `integerPart.fractionalPart` with an
optional leading minus, locale-free, and the four spec examples hold; but
trailing garbage is only value-neutral when no `.` follows the integer
run — when garbage follows the fractional digit run, every garbage
character multiplies the divider by 10, scaling the fractional
contribution down (the divider is `10 ^ (count of characters after the
dot)`), as the counterexample `"3.5x" = 3.05` forces. -/
theorem c7_amended_locale_parser_characterisation :
    (locale_safe_string_to_float "100.033".data 20 = 100.033 ∧
      locale_safe_string_to_float "-5.2".data 20 = -5.2 ∧
      locale_safe_string_to_float "7".data 20 = 7 ∧
      locale_safe_string_to_float "3.".data 20 = 3) ∧
    (∀ d g : List Char, d ≠ [] → (∀ c ∈ d, c.isDigit = true) →
      (∀ c, g.head? = some c → c.isDigit = false ∧ c ≠ '.') →
      (d ++ g).length ≤ 19 →
      locale_safe_string_to_float (d ++ g) 20 = (digitsVal d : ℚ)) ∧
    (∀ d f g : List Char, d ≠ [] → (∀ c ∈ d, c.isDigit = true) →
      (∀ c ∈ f, c.isDigit = true) →
      (∀ c, g.head? = some c →
        c.isDigit = false ∧ isSpaceC c = false ∧ c ≠ '-' ∧ c ≠ '+') →
      ((d ++ '.' :: (f ++ g)).length ≤ 19 →
        locale_safe_string_to_float (d ++ '.' :: (f ++ g)) 20 =
          (digitsVal d : ℚ) + (digitsVal f : ℚ) / 10 ^ (f.length + g.length)) ∧
      (('-' :: (d ++ '.' :: (f ++ g))).length ≤ 19 →
        locale_safe_string_to_float ('-' :: (d ++ '.' :: (f ++ g))) 20 =
          -(digitsVal d : ℚ) - (digitsVal f : ℚ) / 10 ^ (f.length + g.length))) := by
  refine ⟨⟨?_, ?_, ?_, ?_⟩, lssf_no_dot, lssf_dotted⟩
  · have h1 : strtol ['1', '0', '0', '.', '0', '3', '3'] = (100, ['.', '0', '3', '3']) := by
      decide
    have h2 : strtol ['0', '3', '3'] = (33, []) := by decide
    simp [locale_safe_string_to_float, h1, h2]
    norm_num
  · have h1 : strtol ['-', '5', '.', '2'] = (-5, ['.', '2']) := by decide
    have h2 : strtol ['2'] = (2, []) := by decide
    simp [locale_safe_string_to_float, h1, h2]
    norm_num
  · have h1 : strtol ['7'] = (7, []) := by decide
    simp [locale_safe_string_to_float, h1]
  · have h1 : strtol ['3', '.'] = (3, ['.']) := by decide
    have h2 : strtol ([] : List Char) = (0, []) := by decide
    simp [locale_safe_string_to_float, h1, h2]

/-- C7 witness: `"3.5x"` evaluates to `3 + 5 / 10^2`. -/
theorem c7_amended_witness :
    locale_safe_string_to_float (['3'] ++ '.' :: (['5'] ++ ['x'])) 20 =
      (digitsVal ['3'] : ℚ) +
        (digitsVal ['5'] : ℚ) / 10 ^ (List.length ['5'] + List.length ['x']) :=
  (c7_amended_locale_parser_characterisation.2.2 ['3'] ['5'] ['x'] (by decide)
    (by decide) (by decide)
    (by intro c hc; cases hc; decide)).1 (by decide)

end Spamc
